import Mathlib

/-!
Verification of the balloon-flight terrain / fog / sky subsystem.

The definitions below are a shallow embedding of the TypeScript source:

* `noise`, `terrainVertices`, `terrainIndices` embed
  `TerrainGenerator.createProceduralTerrain`;
* `mountainNoise`, `mountainSegment`, `createDistantMountains` embed
  `TerrainGenerator.createDistantMountains`;
* `smoothstep`, `distanceFog` embed the fragment-shader fog factor built by
  `FogSystem.createFoggyMaterial` (GLSL `smoothstep` has its standard
  semantics: clamp of the affine ratio, then the cubic Hermite polynomial);
* `FogParameters`, `FogPatch`, `mergeParameters`, `updateParameters`,
  `updateAllFoggyMaterials` embed `FogSystem`'s parameter handling, with the
  mutable material heap modelled as a map from material ids to material
  records and the registration list `foggyMaterials` as a list of ids;
* `starOpacity` embeds the opacity formula of `StarSystem.createStars` and
  `StarSystem.updateStarOpacity`.

JavaScript numbers are modelled as real numbers; the unseeded random source
`Math.random()` is modelled as an arbitrary function from draw index to a
real in the unit interval.
-/

namespace BalloonFlight

/-- The terrain-patch noise closure of `createProceduralTerrain`:
`Math.sin(x * noiseScale) * Math.cos(z * noiseScale) * 0.5 + 0.5`. -/
noncomputable def noise (noiseScale x z : ℝ) : ℝ :=
  Real.sin (x * noiseScale) * Real.cos (z * noiseScale) * 0.5 + 0.5

/-- The per-segment mountain noise closure of `createDistantMountains`:
a base term, a detail term and a peak term, summed and divided by 1.5. -/
noncomputable def mountainNoise (x z scale offset : ℝ) : ℝ :=
  let baseNoise :=
    Real.sin ((x + offset) * 0.02 * scale) * Real.cos (z * 0.02 * scale) * 0.5
      + 0.5
  let detailNoise :=
    Real.sin ((x + offset) * 0.1 * scale) * Real.cos (z * 0.1 * scale) * 0.3
  let peakNoise :=
    Real.sin ((x + offset) * 0.05 * scale) * Real.cos (z * 0.05 * scale) * 0.2
  (baseNoise + detailNoise + peakNoise) / 1.5

/-- The vertex buffer of `createProceduralTerrain`: the outer loop runs `x`
over `0 .. depth - 1`, the inner loop runs `z` over `0 .. width - 1`, and each
iteration pushes the vertex `(x * spacingX, noise x z * maxHeight, z *
spacingZ)`.  Each list entry is one vertex (one position triple). -/
noncomputable def terrainVertices (width depth : ℕ)
    (spacingX spacingZ maxHeight noiseScale : ℝ) : List (ℝ × ℝ × ℝ) :=
  (List.range depth).flatMap fun x : ℕ =>
    (List.range width).map fun z : ℕ =>
      ((x : ℝ) * spacingX, noise noiseScale x z * maxHeight, (z : ℝ) * spacingZ)

/-- The index buffer of `createProceduralTerrain`: for each quad the source
pushes the two triangles `(a, b, d)` and `(d, c, a)`, six indices in all. -/
def terrainIndices (width depth : ℕ) : List ℕ :=
  (List.range (depth - 1)).flatMap fun z =>
    (List.range (width - 1)).flatMap fun x =>
      let a := x + z * width
      let b := x + 1 + z * width
      let c := x + (z + 1) * width
      let d := x + 1 + (z + 1) * width
      [a, b, d, d, c, a]

/-- A triangle-list index buffer holds three indices per triangle. -/
def triangleCount (indices : List ℕ) : ℕ := indices.length / 3

lemma length_bind_const {α β : Type} (l : List α) (f : α → List β) (m : ℕ)
    (h : ∀ a, (f a).length = m) : (l.flatMap f).length = l.length * m := by
  induction l with
  | nil => simp
  | cons a t ih =>
      simp only [List.flatMap_cons, List.length_append, List.length_cons, ih,
        h a]
      ring

lemma terrainVertices_length (width depth : ℕ)
    (spacingX spacingZ maxHeight noiseScale : ℝ) :
    (terrainVertices width depth spacingX spacingZ maxHeight noiseScale).length
      = width * depth := by
  unfold terrainVertices
  have h : ∀ a : ℕ,
      ((List.range width).map fun z : ℕ =>
        ((a : ℝ) * spacingX, noise noiseScale a z * maxHeight,
          (z : ℝ) * spacingZ)).length = width := by
    intro a
    rw [List.length_map, List.length_range]
  rw [length_bind_const _ _ width h, List.length_range]
  ring

lemma terrainIndices_length (width depth : ℕ) :
    (terrainIndices width depth).length = 6 * ((width - 1) * (depth - 1)) := by
  unfold terrainIndices
  have hrow : ∀ z : ℕ,
      ((List.range (width - 1)).flatMap fun x =>
        let a := x + z * width
        let b := x + 1 + z * width
        let c := x + (z + 1) * width
        let d := x + 1 + (z + 1) * width
        [a, b, d, d, c, a]).length = (width - 1) * 6 := by
    intro z
    have h6 : ∀ x : ℕ,
        ([x + z * width, x + 1 + z * width, x + 1 + (z + 1) * width,
          x + 1 + (z + 1) * width, x + (z + 1) * width,
          x + z * width] : List ℕ).length = 6 := by
      intro x
      rfl
    rw [length_bind_const _ _ 6 h6, List.length_range]
  rw [length_bind_const _ _ ((width - 1) * 6) hrow, List.length_range]
  ring

lemma noise_bounds (noiseScale x z : ℝ) :
    0 ≤ noise noiseScale x z ∧ noise noiseScale x z ≤ 1 := by
  unfold noise
  constructor <;>
    nlinarith [Real.neg_one_le_sin (x * noiseScale),
      Real.sin_le_one (x * noiseScale), Real.neg_one_le_cos (z * noiseScale),
      Real.cos_le_one (z * noiseScale),
      sq_nonneg (Real.sin (x * noiseScale) + Real.cos (z * noiseScale)),
      sq_nonneg (Real.sin (x * noiseScale) - Real.cos (z * noiseScale))]

lemma sin_mul_cos_bounds (a b : ℝ) :
    -1 ≤ Real.sin a * Real.cos b ∧ Real.sin a * Real.cos b ≤ 1 := by
  constructor <;>
    nlinarith [Real.neg_one_le_sin a, Real.sin_le_one a, Real.neg_one_le_cos b,
      Real.cos_le_one b, sq_nonneg (Real.sin a + Real.cos b),
      sq_nonneg (Real.sin a - Real.cos b)]

lemma mountainNoise_bounds (x z scale offset : ℝ) :
    -(1 / 3) ≤ mountainNoise x z scale offset ∧
      mountainNoise x z scale offset ≤ 1 := by
  unfold mountainNoise
  dsimp only
  obtain ⟨hb1, hb2⟩ :=
    sin_mul_cos_bounds ((x + offset) * 0.02 * scale) (z * 0.02 * scale)
  obtain ⟨hd1, hd2⟩ :=
    sin_mul_cos_bounds ((x + offset) * 0.1 * scale) (z * 0.1 * scale)
  obtain ⟨hp1, hp2⟩ :=
    sin_mul_cos_bounds ((x + offset) * 0.05 * scale) (z * 0.05 * scale)
  constructor <;> [skip; skip] <;>
    · norm_num at hb1 hb2 hd1 hd2 hp1 hp2 ⊢
      linarith

/-- C1: for every grid size width ≥ 2 and depth ≥ 2, the mesh built by
`createProceduralTerrain` contains exactly width·depth vertices and exactly
2·(width−1)·(depth−1) triangles; in particular, for width = depth = 64 with
maxHeight = 20 and noiseScale = 0.15, the result has 4096 vertices, 7938
triangles, and every vertex height lies within [0, 20]. -/
theorem createProceduralTerrain_mesh_counts (width depth : ℕ)
    (hw : 2 ≤ width) (hd : 2 ≤ depth)
    (spacingX spacingZ maxHeight noiseScale : ℝ) :
    (terrainVertices width depth spacingX spacingZ maxHeight noiseScale).length
        = width * depth ∧
    triangleCount (terrainIndices width depth)
        = 2 * ((width - 1) * (depth - 1)) ∧
    (terrainVertices 64 64 2 2 20 0.15).length = 4096 ∧
    (terrainIndices 64 64).length / 3 = 7938 ∧
    ∀ v ∈ terrainVertices 64 64 2 2 20 0.15, 0 ≤ v.2.1 ∧ v.2.1 ≤ 20 := by
  have hheights :
      ∀ v ∈ terrainVertices 64 64 2 2 20 0.15, 0 ≤ v.2.1 ∧ v.2.1 ≤ 20 := by
    intro v hv
    unfold terrainVertices at hv
    rw [List.mem_flatMap] at hv
    obtain ⟨a, _, hv⟩ := hv
    rw [List.mem_map] at hv
    obtain ⟨b, _, rfl⟩ := hv
    dsimp only
    obtain ⟨h0, h1⟩ := noise_bounds 0.15 a b
    constructor
    · positivity
    · nlinarith
  refine ⟨terrainVertices_length _ _ _ _ _ _, ?_, ?_, ?_, hheights⟩
  · unfold triangleCount
    rw [terrainIndices_length]
    have h3 : (6 : ℕ) * ((width - 1) * (depth - 1))
        = 3 * (2 * ((width - 1) * (depth - 1))) := by ring
    rw [h3, Nat.mul_div_cancel_left _ (by norm_num : 0 < 3)]
  · rw [terrainVertices_length]
  · rw [terrainIndices_length 64 64]

/-- C1 witness: the end-to-end 64×64 instance. -/
theorem createProceduralTerrain_mesh_counts_witness :
    (terrainVertices 64 64 2 2 20 0.15).length = 4096 ∧
    (terrainIndices 64 64).length / 3 = 7938 := by
  have h := createProceduralTerrain_mesh_counts 64 64 (by norm_num)
    (by norm_num) 2 2 20 0.15
  exact ⟨h.2.2.1, h.2.2.2.1⟩

/-- C2 counterexample: the per-segment mountain noise leaves the unit
interval — at x = −25π, z = 0, scale = 1, offset = 0 it is negative
(its value is (0.1·√2 − 0.3)/1.5 ≈ −0.106). -/
theorem mountainNoise_escapes_unit_interval :
    mountainNoise (-(25 * Real.pi)) 0 1 0 < 0 := by
  unfold mountainNoise
  dsimp only
  have e1 : (-(25 * Real.pi) + 0) * 0.02 * 1 = -(Real.pi / 2) := by
    norm_num
    ring
  have e2 : (-(25 * Real.pi) + 0) * 0.1 * 1 = -(Real.pi / 2 + 2 * Real.pi) := by
    norm_num
    ring
  have e3 : (-(25 * Real.pi) + 0) * 0.05 * 1 = -(Real.pi / 4 + Real.pi) := by
    norm_num
    ring
  have ez1 : (0 : ℝ) * 0.02 * 1 = 0 := by norm_num
  have ez2 : (0 : ℝ) * 0.1 * 1 = 0 := by norm_num
  have ez3 : (0 : ℝ) * 0.05 * 1 = 0 := by norm_num
  rw [e1, e2, e3, ez1, ez2, ez3, Real.cos_zero, Real.sin_neg, Real.sin_neg,
    Real.sin_neg, Real.sin_pi_div_two, Real.sin_add_two_pi,
    Real.sin_pi_div_two, Real.sin_add_pi, Real.sin_pi_div_four]
  have hs : Real.sqrt 2 < 3 := by
    nlinarith [Real.sq_sqrt (by norm_num : (0:ℝ) ≤ 2), Real.sqrt_nonneg 2]
  norm_num
  nlinarith [hs]

/-- C2 (amended): both noise height functions are deterministic — in this
pure embedding, equal arguments give equal values — and for every real x, z
and every scale > 0 the terrain-patch noise lies within [0, 1]; the
per-segment mountain noise, however, lies within [−1/3, 1] and need not be
nonnegative. -/
theorem noise_functions_deterministic_and_bounded (x z scale offset : ℝ)
    (hs : 0 < scale) :
    noise scale x z = noise scale x z ∧
    mountainNoise x z scale offset = mountainNoise x z scale offset ∧
    0 ≤ noise scale x z ∧ noise scale x z ≤ 1 ∧
    -(1 / 3) ≤ mountainNoise x z scale offset ∧
    mountainNoise x z scale offset ≤ 1 := by
  obtain ⟨h0, h1⟩ := noise_bounds scale x z
  obtain ⟨h2, h3⟩ := mountainNoise_bounds x z scale offset
  exact ⟨rfl, rfl, h0, h1, h2, h3⟩

/-- C2 witness: instance of the amended bounds at x = z = offset = 0,
scale = 1. -/
theorem noise_functions_deterministic_and_bounded_witness :
    (0 : ℝ) < 1 ∧
    (0 ≤ noise 1 0 0 ∧ noise 1 0 0 ≤ 1 ∧
      -(1 / 3) ≤ mountainNoise 0 0 1 0 ∧ mountainNoise 0 0 1 0 ≤ 1) := by
  have h := noise_functions_deterministic_and_bounded 0 0 1 0 (by norm_num)
  exact ⟨by norm_num, h.2.2.1, h.2.2.2.1, h.2.2.2.2.1, h.2.2.2.2.2⟩

/-- C6: for every grid size with width < 2 or depth < 2, the
`createProceduralTerrain` face loops never run, so the produced index buffer
is empty (zero triangles); the embedding is a total function, matching the
absence of any thrown error in the source. -/
theorem createProceduralTerrain_degenerate_grid (width depth : ℕ)
    (h : width < 2 ∨ depth < 2) : terrainIndices width depth = [] := by
  rcases h with h | h
  · have hw : width - 1 = 0 := by omega
    unfold terrainIndices
    rw [hw]
    simp
  · have hd : depth - 1 = 0 := by omega
    unfold terrainIndices
    rw [hd]
    simp

/-- C6 witness: the degenerate 1×5 grid has an empty index buffer. -/
theorem createProceduralTerrain_degenerate_grid_witness :
    (1 < 2 ∨ 5 < 2) ∧ terrainIndices 1 5 = [] :=
  ⟨Or.inl (by norm_num),
    createProceduralTerrain_degenerate_grid 1 5 (Or.inl (by norm_num))⟩

/-- GLSL `clamp(x, lo, hi)`: `min(max(x, lo), hi)`. -/
noncomputable def clampR (x lo hi : ℝ) : ℝ := min (max x lo) hi

/-- GLSL `smoothstep(edge0, edge1, x)`: the clamped affine ratio fed into the
cubic Hermite polynomial `t * t * (3 - 2 * t)`. -/
noncomputable def smoothstep (edge0 edge1 x : ℝ) : ℝ :=
  let t := clampR ((x - edge0) / (edge1 - edge0)) 0 1
  t * t * (3 - 2 * t)

/-- The distance-fog factor computed by the fragment shader that
`createFoggyMaterial` injects: zero at or below the start distance, zero at
or beyond the end distance, and `smoothstep` between them. -/
noncomputable def distanceFog
    (fStartDistance fEndDistance viewDistance : ℝ) : ℝ :=
  if viewDistance ≤ fStartDistance then 0
  else if fEndDistance ≤ viewDistance then 0
  else smoothstep fStartDistance fEndDistance viewDistance

lemma distanceFog_mid (s e vd : ℝ) (h1 : s < vd) (h2 : vd < e) :
    distanceFog s e vd
      = ((vd - s) / (e - s)) * ((vd - s) / (e - s))
        * (3 - 2 * ((vd - s) / (e - s))) := by
  have hse : 0 < e - s := by linarith
  have ht0 : 0 < (vd - s) / (e - s) := div_pos (by linarith) hse
  have ht1 : (vd - s) / (e - s) < 1 := by
    rw [div_lt_one hse]
    linarith
  unfold distanceFog smoothstep clampR
  rw [if_neg (by linarith), if_neg (by linarith)]
  dsimp only
  rw [max_eq_left ht0.le, min_eq_left ht1.le]

lemma hermite_bounds_strict (t : ℝ) (h0 : 0 < t) (h1 : t < 1) :
    0 < t * t * (3 - 2 * t) ∧ t * t * (3 - 2 * t) < 1 := by
  constructor
  · have : 0 < 3 - 2 * t := by linarith
    positivity
  · nlinarith [mul_pos (mul_pos (sub_pos.2 h1) (sub_pos.2 h1))
      (by linarith : (0 : ℝ) < 1 + 2 * t)]

lemma hermite_mono (t u : ℝ) (h0 : 0 ≤ t) (htu : t ≤ u) (h1 : u ≤ 1) :
    t * t * (3 - 2 * t) ≤ u * u * (3 - 2 * u) := by
  nlinarith [mul_nonneg (mul_nonneg h0 (by linarith : (0:ℝ) ≤ 1 - t))
      (by linarith : (0:ℝ) ≤ u - t),
    mul_nonneg (mul_nonneg (by linarith : (0:ℝ) ≤ u) (by linarith : (0:ℝ) ≤ 1 - u))
      (by linarith : (0:ℝ) ≤ u - t),
    mul_nonneg (mul_nonneg h0 (by linarith : (0:ℝ) ≤ 1 - u))
      (by linarith : (0:ℝ) ≤ u - t),
    mul_nonneg (mul_nonneg (by linarith : (0:ℝ) ≤ u) (by linarith : (0:ℝ) ≤ 1 - t))
      (by linarith : (0:ℝ) ≤ u - t)]

/-- C3: the distance-fog factor is 0 for viewDistance ≤ startDistance and for
viewDistance ≥ endDistance; strictly between them it is strictly between 0
and 1, equals the smoothstep (Hermite) curve of
(viewDistance − startDistance)/(endDistance − startDistance), and is
monotonically non-decreasing in viewDistance. -/
theorem distanceFog_shape (s e vd vd' : ℝ) :
    (vd ≤ s → distanceFog s e vd = 0) ∧
    (e ≤ vd → distanceFog s e vd = 0) ∧
    (s < vd → vd < e →
      0 < distanceFog s e vd ∧ distanceFog s e vd < 1 ∧
      distanceFog s e vd
        = ((vd - s) / (e - s)) * ((vd - s) / (e - s))
          * (3 - 2 * ((vd - s) / (e - s))) ∧
      (s < vd' → vd' < e → vd ≤ vd' →
        distanceFog s e vd ≤ distanceFog s e vd')) := by
  refine ⟨fun h => ?_, fun h => ?_, fun h1 h2 => ?_⟩
  · unfold distanceFog
    rw [if_pos h]
  · unfold distanceFog
    by_cases hvs : vd ≤ s
    · rw [if_pos hvs]
    · rw [if_neg hvs, if_pos h]
  · have hse : 0 < e - s := by linarith
    have ht0 : 0 < (vd - s) / (e - s) := div_pos (by linarith) hse
    have ht1 : (vd - s) / (e - s) < 1 := by
      rw [div_lt_one hse]
      linarith
    have hmid := distanceFog_mid s e vd h1 h2
    obtain ⟨hlo, hhi⟩ := hermite_bounds_strict _ ht0 ht1
    refine ⟨by rw [hmid]; exact hlo, by rw [hmid]; exact hhi, hmid,
      fun h1' h2' hle => ?_⟩
    rw [hmid, distanceFog_mid s e vd' h1' h2']
    have ht1' : (vd' - s) / (e - s) < 1 := by
      rw [div_lt_one hse]
      linarith
    exact hermite_mono _ _ ht0.le (by gcongr) ht1'.le

/-- C3 witness: the concrete fog window [10, 20] evaluated at view distances
5, 12, 15 and 25. -/
theorem distanceFog_shape_witness :
    distanceFog 10 20 5 = 0 ∧ distanceFog 10 20 25 = 0 ∧
    0 < distanceFog 10 20 12 ∧ distanceFog 10 20 12 < 1 ∧
    distanceFog 10 20 12 ≤ distanceFog 10 20 15 := by
  have h := distanceFog_shape 10 20 12 15
  have hmid := h.2.2 (by norm_num) (by norm_num)
  exact ⟨(distanceFog_shape 10 20 5 15).1 (by norm_num),
    (distanceFog_shape 10 20 25 15).2.1 (by norm_num),
    hmid.1, hmid.2.1,
    hmid.2.2.2 (by norm_num) (by norm_num) (by norm_num)⟩

/-- An RGB colour triple (THREE.Color). -/
structure Color3 where
  r : ℝ
  g : ℝ
  b : ℝ

/-- A four-component vector (THREE.Vector4), used for the view-space fog
plane uniform. -/
structure Vec4 where
  x : ℝ
  y : ℝ
  z : ℝ
  w : ℝ

/-- JavaScript-style truncation toward zero of a real number. -/
noncomputable def jsTrunc (a : ℝ) : ℤ := if 0 ≤ a then ⌊a⌋ else ⌈a⌉

/-- The JavaScript remainder operator on numbers: `a - b * trunc(a / b)`. -/
noncomputable def jsMod (a b : ℝ) : ℝ := a - b * (jsTrunc (a / b) : ℝ)

/-- `hslToRgb` from ColorUtils: hue in [0, 360], saturation and lightness in
[0, 100], converted through the chroma / intermediate / match construction. -/
noncomputable def hslToRgb (h s l : ℝ) : Color3 :=
  let h' := h / 360
  let s' := s / 100
  let l' := l / 100
  let c := (1 - |2 * l' - 1|) * s'
  let x := c * (1 - |jsMod (h' * 6) 2 - 1|)
  let m := l' - c / 2
  let rgb : ℝ × ℝ × ℝ :=
    if h' < 1 / 6 then (c, x, 0)
    else if h' < 2 / 6 then (x, c, 0)
    else if h' < 3 / 6 then (0, c, x)
    else if h' < 4 / 6 then (0, x, c)
    else if h' < 5 / 6 then (x, 0, c)
    else (c, 0, x)
  ⟨rgb.1 + m, rgb.2.1 + m, rgb.2.2 + m⟩

/-- AppConfig.fog.saturation. -/
def fogSaturation : ℝ := 80

/-- The mutable fog configuration record of FogSystem. -/
structure FogParameters where
  depth : ℝ
  startDistance : ℝ
  endDistance : ℝ
  closeHue : ℝ
  distantHue : ℝ
  closeBrightness : ℝ
  distantBrightness : ℝ
  colorStartDistance : ℝ
  colorEndDistance : ℝ
  height : ℝ

/-- An update record for `updateParameters`: each field is optionally
present (TypeScript `Partial` of the parameter record). -/
structure FogPatch where
  depth : Option ℝ := none
  startDistance : Option ℝ := none
  endDistance : Option ℝ := none
  closeHue : Option ℝ := none
  distantHue : Option ℝ := none
  closeBrightness : Option ℝ := none
  distantBrightness : Option ℝ := none
  colorStartDistance : Option ℝ := none
  colorEndDistance : Option ℝ := none
  height : Option ℝ := none

/-- The object-spread merge of the live parameter record with an update
record: a field present in the patch wins, an absent field keeps the live
value. -/
def mergeParameters (p : FogParameters) (q : FogPatch) : FogParameters where
  depth := q.depth.getD p.depth
  startDistance := q.startDistance.getD p.startDistance
  endDistance := q.endDistance.getD p.endDistance
  closeHue := q.closeHue.getD p.closeHue
  distantHue := q.distantHue.getD p.distantHue
  closeBrightness := q.closeBrightness.getD p.closeBrightness
  distantBrightness := q.distantBrightness.getD p.distantBrightness
  colorStartDistance := q.colorStartDistance.getD p.colorStartDistance
  colorEndDistance := q.colorEndDistance.getD p.colorEndDistance
  height := q.height.getD p.height

/-- The uniform bundle that `createFoggyMaterial` registers for a material
on shader compilation. -/
structure FogUniforms where
  fPlane : Vec4
  fDepth : ℝ
  fColor : Color3
  fColorDistant : Color3
  fStartDistance : ℝ
  fEndDistance : ℝ
  fColorStartDistance : ℝ
  fColorEndDistance : ℝ

/-- A fog-aware material as far as the update paths are concerned: its
uniform bundle plus the needsUpdate flag. -/
structure FoggyMaterial where
  uniforms : FogUniforms
  needsUpdate : Bool

/-- The FogSystem state.  The mutable JavaScript heap of materials is
modelled as a map from material ids to material records; the
`foggyMaterials` registration array holds the ids of the materials whose
shaders have compiled (the only ones `updateAllFoggyMaterials` visits). -/
structure FogState where
  parameters : FogParameters
  globalPlaneConstant : ℝ
  fogPlane : Vec4
  tracked : List ℕ
  materials : ℕ → FoggyMaterial

/-- `getFogColor`: close hue and brightness through `hslToRgb` at the fixed
configuration saturation. -/
noncomputable def getFogColor (p : FogParameters) : Color3 :=
  hslToRgb p.closeHue fogSaturation p.closeBrightness

/-- The per-material body of the `forEach` in `updateAllFoggyMaterials`:
every uniform is refreshed from the live parameters and the material is
marked for update. -/
noncomputable def refreshMaterial (p : FogParameters) (plane : Vec4)
    (m : FoggyMaterial) : FoggyMaterial where
  uniforms :=
    { m.uniforms with
      fDepth := p.depth
      fStartDistance := p.startDistance
      fEndDistance := p.endDistance
      fColor := getFogColor p
      fColorDistant := hslToRgb p.distantHue fogSaturation p.distantBrightness
      fColorStartDistance := p.colorStartDistance
      fColorEndDistance := p.colorEndDistance
      fPlane := plane }
  needsUpdate := true

/-- `updateAllFoggyMaterials`: iterate over the registered materials only,
refreshing each one's uniforms; materials that never registered are not
visited. -/
noncomputable def updateAllFoggyMaterials (s : FogState) : FogState :=
  { s with
    materials := fun i =>
      if i ∈ s.tracked then refreshMaterial s.parameters s.fogPlane
        (s.materials i)
      else s.materials i }

/-- `updateParameters`: spread-merge the patch into the live parameters,
update the world-space plane constant when the patch carries a height, then
push the result to every registered material. -/
noncomputable def updateParameters (s : FogState) (q : FogPatch) : FogState :=
  updateAllFoggyMaterials
    { s with
      parameters := mergeParameters s.parameters q
      globalPlaneConstant :=
        match q.height with
        | some h => h
        | none => s.globalPlaneConstant }

/-- The parameter record built by the FogSystem constructor from the
AppConfig fog defaults (height is initialised from defaultDepth). -/
def initialFogParameters : FogParameters where
  depth := 200
  startDistance := 45
  endDistance := 950
  closeHue := 294
  distantHue := 263
  closeBrightness := 33
  distantBrightness := 25
  colorStartDistance := 0
  colorEndDistance := 425
  height := 200

/-- A material record whose uniforms are all zero, used as the blank heap
content for materials that never compiled a fog shader. -/
def blankMaterial : FoggyMaterial where
  uniforms :=
    { fPlane := ⟨0, 0, 0, 0⟩
      fDepth := 0
      fColor := ⟨0, 0, 0⟩
      fColorDistant := ⟨0, 0, 0⟩
      fStartDistance := 0
      fEndDistance := 0
      fColorStartDistance := 0
      fColorEndDistance := 0 }
  needsUpdate := false

/-- The FogSystem state right after construction: default parameters, the
world plane at constant 200, a zero fog-plane uniform and no registered
materials. -/
def initialFogState : FogState where
  parameters := initialFogParameters
  globalPlaneConstant := 200
  fogPlane := ⟨0, 0, 0, 0⟩
  tracked := []
  materials := fun _ => blankMaterial

/-- C4: `updateParameters` replaces exactly the fields present in the patch
and leaves every parameter not named in the patch unchanged; the world-space
plane constant is set to the patch height exactly when the patch carries
one, and is untouched otherwise. -/
theorem updateParameters_merges_exactly (s : FogState) (q : FogPatch) :
    ((∀ v, q.depth = some v → (updateParameters s q).parameters.depth = v) ∧
      (q.depth = none →
        (updateParameters s q).parameters.depth = s.parameters.depth)) ∧
    ((∀ v, q.startDistance = some v →
        (updateParameters s q).parameters.startDistance = v) ∧
      (q.startDistance = none →
        (updateParameters s q).parameters.startDistance
          = s.parameters.startDistance)) ∧
    ((∀ v, q.endDistance = some v →
        (updateParameters s q).parameters.endDistance = v) ∧
      (q.endDistance = none →
        (updateParameters s q).parameters.endDistance
          = s.parameters.endDistance)) ∧
    ((∀ v, q.closeHue = some v →
        (updateParameters s q).parameters.closeHue = v) ∧
      (q.closeHue = none →
        (updateParameters s q).parameters.closeHue = s.parameters.closeHue)) ∧
    ((∀ v, q.distantHue = some v →
        (updateParameters s q).parameters.distantHue = v) ∧
      (q.distantHue = none →
        (updateParameters s q).parameters.distantHue
          = s.parameters.distantHue)) ∧
    ((∀ v, q.closeBrightness = some v →
        (updateParameters s q).parameters.closeBrightness = v) ∧
      (q.closeBrightness = none →
        (updateParameters s q).parameters.closeBrightness
          = s.parameters.closeBrightness)) ∧
    ((∀ v, q.distantBrightness = some v →
        (updateParameters s q).parameters.distantBrightness = v) ∧
      (q.distantBrightness = none →
        (updateParameters s q).parameters.distantBrightness
          = s.parameters.distantBrightness)) ∧
    ((∀ v, q.colorStartDistance = some v →
        (updateParameters s q).parameters.colorStartDistance = v) ∧
      (q.colorStartDistance = none →
        (updateParameters s q).parameters.colorStartDistance
          = s.parameters.colorStartDistance)) ∧
    ((∀ v, q.colorEndDistance = some v →
        (updateParameters s q).parameters.colorEndDistance = v) ∧
      (q.colorEndDistance = none →
        (updateParameters s q).parameters.colorEndDistance
          = s.parameters.colorEndDistance)) ∧
    ((∀ v, q.height = some v →
        (updateParameters s q).parameters.height = v) ∧
      (q.height = none →
        (updateParameters s q).parameters.height = s.parameters.height)) ∧
    ((∀ v, q.height = some v →
        (updateParameters s q).globalPlaneConstant = v) ∧
      (q.height = none →
        (updateParameters s q).globalPlaneConstant
          = s.globalPlaneConstant)) := by
  refine ⟨⟨fun v h => ?_, fun h => ?_⟩, ⟨fun v h => ?_, fun h => ?_⟩,
    ⟨fun v h => ?_, fun h => ?_⟩, ⟨fun v h => ?_, fun h => ?_⟩,
    ⟨fun v h => ?_, fun h => ?_⟩, ⟨fun v h => ?_, fun h => ?_⟩,
    ⟨fun v h => ?_, fun h => ?_⟩, ⟨fun v h => ?_, fun h => ?_⟩,
    ⟨fun v h => ?_, fun h => ?_⟩, ⟨fun v h => ?_, fun h => ?_⟩,
    ⟨fun v h => ?_, fun h => ?_⟩⟩ <;>
  simp [updateParameters, updateAllFoggyMaterials, mergeParameters, h]

/-- C4 witness: patching depth to 120 and height to 80 on the initial state
replaces those two fields, moves the plane constant to 80, and leaves
startDistance at its initial 45. -/
theorem updateParameters_merges_exactly_witness :
    (updateParameters initialFogState
        { depth := some 120, height := some 80 }).parameters.depth = 120 ∧
    (updateParameters initialFogState
        { depth := some 120, height := some 80 }).parameters.startDistance
      = 45 ∧
    (updateParameters initialFogState
        { depth := some 120, height := some 80 }).globalPlaneConstant = 80 := by
  have h := updateParameters_merges_exactly initialFogState
    { depth := some 120, height := some 80 }
  exact ⟨h.1.1 120 rfl, (h.2.1.2 rfl).trans rfl,
    h.2.2.2.2.2.2.2.2.2.2.1 80 rfl⟩

/-- C9: a fog parameter update touches only the materials whose ids are on
the registration list; a material that never registered is left entirely
unchanged by both `updateAllFoggyMaterials` and `updateParameters`, and both
embeddings are total functions, matching the absence of any raised error. -/
theorem unregistered_materials_untouched (s : FogState) (q : FogPatch)
    (i : ℕ) (h : i ∉ s.tracked) :
    (updateAllFoggyMaterials s).materials i = s.materials i ∧
    (updateParameters s q).materials i = s.materials i := by
  constructor
  · simp [updateAllFoggyMaterials, h]
  · simp [updateParameters, updateAllFoggyMaterials, h]

/-- C9 witness: on the freshly constructed state nothing is registered, so
material 0 survives an update of every kind untouched. -/
theorem unregistered_materials_untouched_witness :
    (updateAllFoggyMaterials initialFogState).materials 0
      = initialFogState.materials 0 ∧
    (updateParameters initialFogState
        { startDistance := some 60 }).materials 0
      = initialFogState.materials 0 :=
  unregistered_materials_untouched initialFogState
    { startDistance := some 60 } 0 (by simp [initialFogState])

/-- Heap model for the copy semantics of `getParameters`: parameter records
live at numeric addresses, the fog system owns the record at `sysAddr`, and
`nextAddr` is the allocator frontier (every address at or above it is
fresh).  The fog-plane uniform and the world-plane constant ride along so
their non-interference can be stated. -/
structure FogParamHeap where
  nextAddr : ℕ
  mem : ℕ → FogParameters
  sysAddr : ℕ
  fogPlane : Vec4
  globalPlaneConstant : ℝ

/-- `getParameters`: the spread `{ ...this.parameters }` allocates a fresh
object whose fields are copied from the live record, and returns its
address. -/
def getParameters (st : FogParamHeap) : ℕ × FogParamHeap :=
  (st.nextAddr,
   { st with
     nextAddr := st.nextAddr + 1
     mem := fun a =>
       if a = st.nextAddr then st.mem st.sysAddr else st.mem a })

/-- A caller mutating the object it received from `getParameters`:
overwrite the record stored at an address. -/
def writeRecord (st : FogParamHeap) (a : ℕ) (v : FogParameters) :
    FogParamHeap :=
  { st with mem := fun b => if b = a then v else st.mem b }

/-- C10: `getParameters` returns a copy, not the live record: the returned
address differs from the system's, its content equals the live record, and
however the caller overwrites the returned object, the system's record, the
fog plane and the plane constant are unchanged; two consecutive calls with
no intervening update return equal values. -/
theorem getParameters_returns_copy (st : FogParamHeap)
    (hal : st.sysAddr < st.nextAddr) (v : FogParameters) :
    (getParameters st).1 ≠ st.sysAddr ∧
    (getParameters st).2.mem (getParameters st).1 = st.mem st.sysAddr ∧
    (writeRecord (getParameters st).2 (getParameters st).1 v).mem st.sysAddr
      = st.mem st.sysAddr ∧
    (writeRecord (getParameters st).2 (getParameters st).1 v).sysAddr
      = st.sysAddr ∧
    (writeRecord (getParameters st).2 (getParameters st).1 v).fogPlane
      = st.fogPlane ∧
    FogParamHeap.globalPlaneConstant
        (writeRecord (getParameters st).2 (getParameters st).1 v)
      = st.globalPlaneConstant ∧
    (getParameters (getParameters st).2).2.mem
        (getParameters (getParameters st).2).1
      = (getParameters st).2.mem (getParameters st).1 := by
  have hne : st.sysAddr ≠ st.nextAddr := Nat.ne_of_lt hal
  refine ⟨fun hc => hne hc.symm, ?_, ?_, rfl, rfl, rfl, ?_⟩ <;>
    simp [getParameters, writeRecord, hne, Nat.succ_ne_self]

/-- C10 witness: the one-record heap of the freshly constructed system. -/
theorem getParameters_returns_copy_witness :
    (getParameters
        { nextAddr := 1, mem := fun _ => initialFogParameters, sysAddr := 0,
          fogPlane := ⟨0, 0, 0, 0⟩, globalPlaneConstant := 200 }).1 ≠ 0 ∧
    (writeRecord
        (getParameters
          { nextAddr := 1, mem := fun _ => initialFogParameters, sysAddr := 0,
            fogPlane := ⟨0, 0, 0, 0⟩, globalPlaneConstant := 200 }).2
        (getParameters
          { nextAddr := 1, mem := fun _ => initialFogParameters, sysAddr := 0,
            fogPlane := ⟨0, 0, 0, 0⟩, globalPlaneConstant := 200 }).1
        { initialFogParameters with depth := 999 }).mem 0
      = initialFogParameters := by
  have h := getParameters_returns_copy
    { nextAddr := 1, mem := fun _ => initialFogParameters, sysAddr := 0,
      fogPlane := ⟨0, 0, 0, 0⟩, globalPlaneConstant := 200 }
    (by norm_num) { initialFogParameters with depth := 999 }
  exact ⟨h.1, h.2.2.1⟩

/-- One mountain segment of `createDistantMountains`: the randomized
characteristics drawn inside the loop body and the resulting transform.
The per-vertex geometry (a `mountainDepth × mountainWidth` grid heightened
by `mountainNoise`) is elided; it contributes no further random draws. -/
structure MountainSegment where
  mountainScale : ℝ
  mountainHeight : ℝ
  mountainOffset : ℝ
  posX : ℝ
  posZ : ℝ
  posY : ℝ
  rotY : ℝ
  scale : ℝ

/-- The oversized flat plane `createDistantMountains` places beneath the
ring: a `PlaneGeometry(distance * 2.5, distance * 2.5)` at y = −20, rotated
by −π/2 about x to lie horizontal. -/
structure GroundPlane where
  sizeX : ℝ
  sizeZ : ℝ
  posY : ℝ
  rotX : ℝ

/-- Loop iteration `i` of `createDistantMountains`.  The five `Math.random()`
calls of iteration `i` are draws `5i .. 5i+4` of the random source, in
source order: mountainScale, mountainHeight, mountainOffset, randomOffset,
randomAngle. -/
noncomputable def mountainSegment (distance minHeight maxHeight
    mountainPosition : ℝ) (segments : ℕ) (rand : ℕ → ℝ) (i : ℕ) :
    MountainSegment :=
  let segmentAngle := (Real.pi * 2) / segments
  let mountainScale := 0.6 + rand (5 * i) * 0.8
  let mountainHeight := minHeight + rand (5 * i + 1) * (maxHeight - minHeight)
  let mountainOffset := rand (5 * i + 2) * 200
  let angle := i * segmentAngle
  let randomOffset := (rand (5 * i + 3) - 0.5) * 50
  let randomAngle := (rand (5 * i + 4) - 0.5) * 0.2
  { mountainScale := mountainScale
    mountainHeight := mountainHeight
    mountainOffset := mountainOffset
    posX := Real.cos (angle + randomAngle) * (distance + randomOffset)
    posZ := Real.sin (angle + randomAngle) * (distance + randomOffset)
    posY := mountainPosition
    rotY := angle + Real.pi / 2 + randomAngle
    scale := mountainScale }

/-- `createDistantMountains`: `max(count, 16)` ring segments plus the single
ground plane. -/
noncomputable def createDistantMountains (count : ℕ)
    (distance minHeight maxHeight mountainPosition : ℝ) (rand : ℕ → ℝ) :
    List MountainSegment × GroundPlane :=
  let segments := max count 16
  ((List.range segments).map
      (mountainSegment distance minHeight maxHeight mountainPosition segments
        rand),
   { sizeX := distance * 2.5
     sizeZ := distance * 2.5
     posY := -20
     rotX := -(Real.pi / 2) })

/-- C5: for every requested count, `createDistantMountains` creates exactly
`max(count, 16)` mountain segments — so a request of 5 yields at least 16 —
together with exactly one ground plane of side length 2.5 · distance on both
axes, rotated to horizontal at a fixed low y. -/
theorem createDistantMountains_segments_and_ground (count : ℕ)
    (distance minHeight maxHeight mountainPosition : ℝ) (rand : ℕ → ℝ) :
    (createDistantMountains count distance minHeight maxHeight
        mountainPosition rand).1.length = max count 16 ∧
    16 ≤ (createDistantMountains 5 distance minHeight maxHeight
        mountainPosition rand).1.length ∧
    (createDistantMountains count distance minHeight maxHeight
        mountainPosition rand).2.sizeX = distance * 2.5 ∧
    (createDistantMountains count distance minHeight maxHeight
        mountainPosition rand).2.sizeZ = distance * 2.5 ∧
    (createDistantMountains count distance minHeight maxHeight
        mountainPosition rand).2.posY = -20 ∧
    (createDistantMountains count distance minHeight maxHeight
        mountainPosition rand).2.rotX = -(Real.pi / 2) := by
  refine ⟨?_, ?_, rfl, rfl, rfl, rfl⟩ <;>
    simp [createDistantMountains]

/-- C7: every segment of `createDistantMountains`, under every outcome of
the random source valued in [0, 1], sits at polar angle
`i · (2π / segmentCount)` plus an angular jitter of at most 0.1 rad, at a
radius `distance` plus a radial jitter of at most 25 units, and its y
rotation is that base angle plus π/2 plus the same angular jitter. -/
theorem mountainSegment_placement (count : ℕ)
    (distance minHeight maxHeight mountainPosition : ℝ) (rand : ℕ → ℝ)
    (hr : ∀ n, 0 ≤ rand n ∧ rand n ≤ 1) (i : ℕ) :
    (∀ h : i < (createDistantMountains count distance minHeight maxHeight
        mountainPosition rand).1.length,
      (createDistantMountains count distance minHeight maxHeight
          mountainPosition rand).1.get ⟨i, h⟩
        = mountainSegment distance minHeight maxHeight mountainPosition
            (max count 16) rand i) ∧
    ∃ jA jR : ℝ, |jA| ≤ 0.1 ∧ |jR| ≤ 25 ∧
      (mountainSegment distance minHeight maxHeight mountainPosition
          (max count 16) rand i).posX
        = Real.cos (i * ((Real.pi * 2) / (max count 16)) + jA)
            * (distance + jR) ∧
      (mountainSegment distance minHeight maxHeight mountainPosition
          (max count 16) rand i).posZ
        = Real.sin (i * ((Real.pi * 2) / (max count 16)) + jA)
            * (distance + jR) ∧
      (mountainSegment distance minHeight maxHeight mountainPosition
          (max count 16) rand i).rotY
        = i * ((Real.pi * 2) / (max count 16)) + Real.pi / 2 + jA := by
  constructor
  · intro h
    simp [createDistantMountains]
  · refine ⟨(rand (5 * i + 4) - 0.5) * 0.2, (rand (5 * i + 3) - 0.5) * 50,
      ?_, ?_, ?_, ?_, ?_⟩
    · obtain ⟨h0, h1⟩ := hr (5 * i + 4)
      rw [abs_le]
      constructor <;> nlinarith
    · obtain ⟨h0, h1⟩ := hr (5 * i + 3)
      rw [abs_le]
      constructor <;> nlinarith
    · simp [mountainSegment]
    · simp [mountainSegment]
    · simp [mountainSegment]

/-- C7 witness: segment 0 of a 16-segment ring with the constant-half
random source, which has zero jitter. -/
theorem mountainSegment_placement_witness :
    (∀ n : ℕ, 0 ≤ (fun _ : ℕ => (1 / 2 : ℝ)) n ∧
      (fun _ : ℕ => (1 / 2 : ℝ)) n ≤ 1) ∧
    ∃ jA jR : ℝ, |jA| ≤ 0.1 ∧ |jR| ≤ 25 ∧
      (mountainSegment 800 100 300 (-20) (max 16 16)
          (fun _ : ℕ => (1 / 2 : ℝ)) 0).posX
        = Real.cos ((0 : ℕ) * ((Real.pi * 2) / ((max 16 16 : ℕ) : ℝ)) + jA)
            * (800 + jR) ∧
      (mountainSegment 800 100 300 (-20) (max 16 16)
          (fun _ : ℕ => (1 / 2 : ℝ)) 0).posZ
        = Real.sin ((0 : ℕ) * ((Real.pi * 2) / ((max 16 16 : ℕ) : ℝ)) + jA)
            * (800 + jR) ∧
      (mountainSegment 800 100 300 (-20) (max 16 16)
          (fun _ : ℕ => (1 / 2 : ℝ)) 0).rotY
        = (0 : ℕ) * ((Real.pi * 2) / ((max 16 16 : ℕ) : ℝ)) + Real.pi / 2 + jA := by
  have hr : ∀ n : ℕ, 0 ≤ (fun _ : ℕ => (1 / 2 : ℝ)) n ∧
      (fun _ : ℕ => (1 / 2 : ℝ)) n ≤ 1 := fun n => by norm_num
  exact ⟨hr,
    (mountainSegment_placement 16 800 100 300 (-20)
      (fun _ : ℕ => (1 / 2 : ℝ)) hr 0).2⟩

/-- The per-star opacity computation in `StarSystem.createStars`: with the
horizon at 0, fade starts at `+fadeOffset` and ends at `−fadeOffset`; below
the fade start the opacity is `max(0, (y − fadeEnd) / (fadeStart − fadeEnd))`,
otherwise 1. -/
noncomputable def starOpacity (fadeOffset starY : ℝ) : ℝ :=
  let horizonHeight : ℝ := 0
  let fadeStart := horizonHeight + fadeOffset
  let fadeEnd := horizonHeight - fadeOffset
  if starY < fadeStart then max 0 ((starY - fadeEnd) / (fadeStart - fadeEnd))
  else 1

/-- The identical opacity computation in `StarSystem.updateStarOpacity`,
applied to each star's current y position and the given fade offset. -/
noncomputable def updateStarOpacityValue (fadeOffset starY : ℝ) : ℝ :=
  let horizonHeight : ℝ := 0
  let fadeStart := horizonHeight + fadeOffset
  let fadeEnd := horizonHeight - fadeOffset
  if starY < fadeStart then max 0 ((starY - fadeEnd) / (fadeStart - fadeEnd))
  else 1

/-- C8: for every star (at creation, and likewise on every
`updateStarOpacity` pass, which computes the same value): opacity is 1 at or
above `+fadeOffset`, follows the linear ramp `(y + f) / (2f)` from 1 at
`+fadeOffset` down to 0 at `−fadeOffset` (strictly decreasing as y
decreases), is 0 at or below `−fadeOffset`, and is never negative. -/
theorem starOpacity_fade (f y y' : ℝ) (hf : 0 < f) :
    updateStarOpacityValue f y = starOpacity f y ∧
    (f ≤ y → starOpacity f y = 1) ∧
    (-f ≤ y → y ≤ f → starOpacity f y = (y + f) / (2 * f)) ∧
    (y ≤ -f → starOpacity f y = 0) ∧
    0 ≤ starOpacity f y ∧
    (-f ≤ y → y' ≤ f → y < y' → starOpacity f y < starOpacity f y') := by
  have hform : ∀ u : ℝ, -f ≤ u → u ≤ f → starOpacity f u = (u + f) / (2 * f) := by
    intro u hu1 hu2
    unfold starOpacity
    dsimp only
    by_cases hu : u < 0 + f
    · rw [if_pos hu]
      have hnum : 0 ≤ u - (0 - f) := by linarith
      have hden : 0 < 0 + f - (0 - f) := by linarith
      rw [max_eq_right (div_nonneg hnum hden.le)]
      congr 1 <;> ring
    · rw [if_neg hu]
      have hu' : u = f := by
        push_neg at hu
        linarith
      rw [hu']
      field_simp
      ring
  have hone : ∀ u : ℝ, f ≤ u → starOpacity f u = 1 := by
    intro u hu
    unfold starOpacity
    dsimp only
    by_cases h : u < 0 + f
    · exfalso
      linarith
    · rw [if_neg h]
  have hzero : ∀ u : ℝ, u ≤ -f → starOpacity f u = 0 := by
    intro u hu
    unfold starOpacity
    dsimp only
    rw [if_pos (by linarith)]
    have : (u - (0 - f)) / (0 + f - (0 - f)) ≤ 0 := by
      apply div_nonpos_of_nonpos_of_nonneg <;> linarith
    rw [max_eq_left this]
  have hnonneg : 0 ≤ starOpacity f y := by
    unfold starOpacity
    dsimp only
    by_cases h : y < 0 + f
    · rw [if_pos h]
      exact le_max_left 0 _
    · rw [if_neg h]
      norm_num
  refine ⟨rfl, hone y, hform y, hzero y, hnonneg, fun h1 h2 h3 => ?_⟩
  rw [hform y h1 (by linarith), hform y' (by linarith) h2]
  gcongr

/-- C8 witness: fade offset 1; a star at y = 2 is fully opaque, at y = 0 the
ramp gives 1/2, at y = −3 the opacity is 0, and the ramp increases with y. -/
theorem starOpacity_fade_witness :
    starOpacity 1 2 = 1 ∧ starOpacity 1 0 = (0 + 1) / (2 * 1) ∧
    starOpacity 1 (-3) = 0 ∧ 0 ≤ starOpacity 1 0 ∧
    starOpacity 1 0 < starOpacity 1 (1 / 2) := by
  have h2 := starOpacity_fade 1 2 0 (by norm_num)
  have h0 := starOpacity_fade 1 0 (1 / 2) (by norm_num)
  have h3 := starOpacity_fade 1 (-3) 0 (by norm_num)
  exact ⟨h2.2.1 (by norm_num), h0.2.2.1 (by norm_num) (by norm_num),
    h3.2.2.2.1 (by norm_num), h0.2.2.2.2.1,
    h0.2.2.2.2.2 (by norm_num) (by norm_num) (by norm_num)⟩

end BalloonFlight
